import Mathlib

set_option maxRecDepth 100000

/-!
Verification of the kindle-clips parser and formatters
(`src/kindle_clips.py`) via a shallow embedding in Lean.

The program reads a Kindle `My Clippings.txt` export as a stream of
newline-stripped lines, groups them five at a time into `RawClip`
records, classifies each record by the prefix of its metadata (`info`)
line, extracts page / location / date / time fields with regular
expressions, and renders the resulting `Clip` records as plain text,
org outline markup or JSON.

Modelling conventions:
* Python exceptions (`KeyError` from the month table, `ValueError` from
  the `date`/`time` constructors and the formatter dispatch) are
  modelled with `Except Unit`.
* The three regular-expression searches are modelled as executable
  functions on `List Char` implementing leftmost search with the
  greedy, backtracking semantics of Python's `re.search` specialised to
  the three concrete patterns of the source.  The `$` anchor is
  modelled as end-of-input: the parser only applies it to
  newline-stripped lines.
* Python `str` values are Lean `String`s; `int()` on a captured digit
  group is a decimal fold; `str(None)` is the text `"None"`.
-/

/-- One raw five-line record, as in the Python dataclass `RawClip`. -/
structure RawClip where
  source : String
  info : String
  blank : String
  content : String
  delimiter : String
  deriving DecidableEq

/-- `datetime.date` restricted to the fields the program uses. -/
structure PyDate where
  year : Nat
  month : Nat
  day : Nat
  deriving DecidableEq

/-- `datetime.time` restricted to the fields the program uses. -/
structure PyTime where
  hour : Nat
  minute : Nat
  second : Nat
  deriving DecidableEq

/-- A parsed clip, as in the Python dataclass `Clip`. -/
structure Clip where
  type : String
  source : String
  page : List Nat
  location : List Nat
  date : Option PyDate
  time : Option PyTime
  content : String
  deriving DecidableEq

/-- The aggregate parse result, as in the Python dataclass `Extraction`. -/
structure Extraction where
  highlights : List Clip
  notes : List Clip
  bookmarks : List Clip
  unparsed : List (RawClip × Nat)
  deriving DecidableEq

instance {ε α : Type} [DecidableEq ε] [DecidableEq α] : DecidableEq (Except ε α) := fun x y =>
  match x, y with
  | Except.ok a, Except.ok b =>
    if h : a = b then isTrue (by rw [h]) else isFalse (by intro hc; injection hc; exact h (by assumption))
  | Except.error a, Except.error b =>
    if h : a = b then isTrue (by rw [h]) else isFalse (by intro hc; injection hc; exact h (by assumption))
  | Except.ok _, Except.error _ => isFalse (by intro hc; exact Except.noConfusion hc)
  | Except.error _, Except.ok _ => isFalse (by intro hc; exact Except.noConfusion hc)

/-- `True` on the Booleans: is this `Except` an `ok` value? -/
def exOk {α : Type} : Except Unit α → Bool
  | Except.ok _ => true
  | Except.error _ => false

/-- Python `str.startswith`, i.e. a prefix test on the character data. -/
def pyStartswith (s pre : String) : Bool :=
  List.isPrefixOf pre.data s.data

/-- Decimal value of a run of captured digit characters (Python `int`). -/
def charsToNat (l : List Char) : Nat :=
  l.foldl (fun a c => a * 10 + (c.toNat - 48)) 0

/-- Decimal value of a captured digit-group string (Python `int`). -/
def strToNat (s : String) : Nat :=
  charsToNat s.data

/-- Strip a literal regex fragment case-insensitively (first argument is
the pattern text, second the input); returns the remaining input. -/
def stripLitCI : List Char → List Char → Option (List Char)
  | [], rest => some rest
  | _ :: _, [] => none
  | p :: ps, c :: cs => if c.toLower = p.toLower then stripLitCI ps cs else none

/-- The alternatives of a greedy `[0-9]{1,2}` group at the current
position, most preferred (two digits) first; each alternative is the
captured digits paired with the remaining input. -/
def d12 : List Char → List (List Char × List Char)
  | a :: b :: rest =>
    if a.isDigit then
      if b.isDigit then [([a, b], rest), ([a], b :: rest)]
      else [([a], b :: rest)]
    else []
  | [a] => if a.isDigit then [([a], [])] else []
  | [] => []

/-- Character class `[AMP]` under `re.IGNORECASE`. -/
def isAMPChar (c : Char) : Bool :=
  c = 'A' || c = 'M' || c = 'P' || c = 'a' || c = 'm' || c = 'p'

/-- Match `([0-9]{1,2}):([0-9]{1,2}):([0-9]{1,2}) ([AMP]+)$` (pattern of
`parse_time_info`, `re.IGNORECASE`) at the start of the input,
returning the four captured groups. -/
def timeMatchAt (cs : List Char) : Option (String × String × String × String) :=
  (d12 cs).findSome? fun p1 =>
    match p1.2 with
    | ':' :: r2 =>
      (d12 r2).findSome? fun p2 =>
        match p2.2 with
        | ':' :: r4 =>
          (d12 r4).findSome? fun p3 =>
            match p3.2 with
            | ' ' :: r6 =>
              if r6.isEmpty then none
              else if r6.all isAMPChar then
                some (String.mk p1.1, String.mk p2.1, String.mk p3.1, String.mk r6)
              else none
            | _ => none
        | _ => none
    | _ => none

/-- Leftmost `re.search` for the time pattern. -/
def timeSearch : List Char → Option (String × String × String × String)
  | [] => none
  | c :: rest =>
    match timeMatchAt (c :: rest) with
    | some g => some g
    | none => timeSearch rest

/-- Match `Added on [a-z]+, ([a-z]+) ([0-9]{1,2}), ([0-9]{4})` (pattern
of `parse_date_info`, `re.IGNORECASE`) at the start of the input,
returning the month, day and year groups. -/
def dateMatchAt (cs : List Char) : Option (String × String × String) :=
  match stripLitCI "Added on ".data cs with
  | none => none
  | some r1 =>
    let wdr := r1.span Char.isAlpha
    if wdr.1.isEmpty then none else
    match stripLitCI ", ".data wdr.2 with
    | none => none
    | some r3 =>
      let mor := r3.span Char.isAlpha
      if mor.1.isEmpty then none else
      match stripLitCI " ".data mor.2 with
      | none => none
      | some r5 =>
        (d12 r5).findSome? fun pd =>
          match stripLitCI ", ".data pd.2 with
          | none => none
          | some r7 =>
            match r7 with
            | y1 :: y2 :: y3 :: y4 :: _ =>
              if y1.isDigit && y2.isDigit && y3.isDigit && y4.isDigit then
                some (String.mk mor.1, String.mk pd.1, String.mk [y1, y2, y3, y4])
              else none
            | _ => none

/-- Leftmost `re.search` for the date pattern. -/
def dateSearch : List Char → Option (String × String × String)
  | [] => none
  | c :: rest =>
    match dateMatchAt (c :: rest) with
    | some g => some g
    | none => dateSearch rest

/-- Alternatives of the greedy optional `s?` (case-insensitive),
preferring to consume the `s`. -/
def sOpt : List Char → List (List Char)
  | [] => [[]]
  | c :: t => if c.toLower = 's' then [t, c :: t] else [c :: t]

/-- Match `pages? ([0-9]+)-([0-9]+)|page ([0-9]+)` (pattern of
`parse_page_info`, `re.IGNORECASE`) at the start of the input; the
result is the list built from the non-`None` groups. -/
def pageMatchAt (cs : List Char) : Option (List Nat) :=
  let alt1 :=
    match stripLitCI "page".data cs with
    | none => none
    | some r1 =>
      (sOpt r1).findSome? fun r2 =>
        match r2 with
        | ' ' :: r3 =>
          let n1r := r3.span Char.isDigit
          if n1r.1.isEmpty then none else
          match n1r.2 with
          | '-' :: r5 =>
            let n2r := r5.span Char.isDigit
            if n2r.1.isEmpty then none
            else some [charsToNat n1r.1, charsToNat n2r.1]
          | _ => none
        | _ => none
  match alt1 with
  | some v => some v
  | none =>
    match stripLitCI "page ".data cs with
    | none => none
    | some r1 =>
      let nr := r1.span Char.isDigit
      if nr.1.isEmpty then none else some [charsToNat nr.1]

/-- Leftmost `re.search` for the page pattern. -/
def pageSearch : List Char → Option (List Nat)
  | [] => none
  | c :: rest =>
    match pageMatchAt (c :: rest) with
    | some g => some g
    | none => pageSearch rest

/-- Match `Location ([0-9]+)-([0-9]+)|Location ([0-9]+)` (pattern of
`parse_location_info`, `re.IGNORECASE`) at the start of the input. -/
def locMatchAt (cs : List Char) : Option (List Nat) :=
  let alt1 :=
    match stripLitCI "Location ".data cs with
    | none => none
    | some r1 =>
      let n1r := r1.span Char.isDigit
      if n1r.1.isEmpty then none else
      match n1r.2 with
      | '-' :: r3 =>
        let n2r := r3.span Char.isDigit
        if n2r.1.isEmpty then none
        else some [charsToNat n1r.1, charsToNat n2r.1]
      | _ => none
  match alt1 with
  | some v => some v
  | none =>
    match stripLitCI "Location ".data cs with
    | none => none
    | some r1 =>
      let nr := r1.span Char.isDigit
      if nr.1.isEmpty then none else some [charsToNat nr.1]

/-- Leftmost `re.search` for the location pattern. -/
def locSearch : List Char → Option (List Nat)
  | [] => none
  | c :: rest =>
    match locMatchAt (c :: rest) with
    | some g => some g
    | none => locSearch rest

/-- The static month table `MONTHS` of the source. -/
def MONTHS : List (String × Nat) :=
  [("january", 1), ("february", 2), ("march", 3), ("april", 4),
   ("may", 5), ("june", 6), ("july", 7), ("august", 8),
   ("september", 9), ("october", 10), ("november", 11), ("december", 12)]

/-- Lowercase a string character-wise (Python `str.lower`). -/
def lowerStr (s : String) : String :=
  String.mk (s.data.map Char.toLower)

/-- Uppercase a string character-wise (Python `str.upper`). -/
def upperStr (s : String) : String :=
  String.mk (s.data.map Char.toUpper)

/-- Gregorian leap-year test used by `datetime.date` validation. -/
def isLeapYear (y : Nat) : Bool :=
  y % 4 = 0 && (y % 100 != 0 || y % 400 = 0)

/-- Day count of a month, for `datetime.date` validation. -/
def daysInMonth (y m : Nat) : Nat :=
  if m = 2 then (if isLeapYear y then 29 else 28)
  else if m = 4 ∨ m = 6 ∨ m = 9 ∨ m = 11 then 30
  else 31

/-- The `datetime.date` constructor: a valid date or `ValueError`. -/
def pyDateMk (y m d : Nat) : Except Unit (Option PyDate) :=
  if 1 ≤ y ∧ y ≤ 9999 ∧ 1 ≤ m ∧ m ≤ 12 ∧ 1 ≤ d ∧ d ≤ daysInMonth y m then
    Except.ok (some (PyDate.mk y m d))
  else Except.error ()

/-- The `datetime.time` constructor: a valid time or `ValueError`. -/
def pyTimeMk (h m s : Nat) : Except Unit (Option PyTime) :=
  if h ≤ 23 ∧ m ≤ 59 ∧ s ≤ 59 then Except.ok (some (PyTime.mk h m s))
  else Except.error ()

/-- `get_rawclip_type`: classify a record by the prefix of its info line. -/
def get_rawclip_type (rclip : RawClip) : String :=
  if pyStartswith rclip.info "- Your Highlight" then "highlight"
  else if pyStartswith rclip.info "- Your Note" then "note"
  else if pyStartswith rclip.info "- Your Bookmark" then "bookmark"
  else "unparsed"

/-- `parse_page_info`: page field of an info line. -/
def parse_page_info (string : String) : List Nat :=
  match pageSearch string.data with
  | none => []
  | some v => v

/-- `parse_location_info`: location field of an info line. -/
def parse_location_info (string : String) : List Nat :=
  match locSearch string.data with
  | none => []
  | some v => v

/-- `parse_date_info`: date field of an info line; a month token missing
from `MONTHS` is a `KeyError`, modelled as `Except.error`. -/
def parse_date_info (string : String) : Except Unit (Option PyDate) :=
  match dateSearch string.data with
  | none => Except.ok none
  | some g =>
    match List.lookup (lowerStr g.1) MONTHS with
    | none => Except.error ()
    | some m => pyDateMk (strToNat g.2.2) m (strToNat g.2.1)

/-- `parse_time_info`: time field of an info line, converting 12-hour to
24-hour form; an out-of-range component is a `ValueError`. -/
def parse_time_info (string : String) : Except Unit (Option PyTime) :=
  match timeSearch string.data with
  | none => Except.ok none
  | some g =>
    let hour := strToNat g.1
    let minutes := strToNat g.2.1
    let seconds := strToNat g.2.2.1
    let period := upperStr g.2.2.2
    let hour :=
      if period = "PM" ∧ hour ≠ 12 then hour + 12
      else if period = "AM" ∧ hour = 12 then hour - 12
      else hour
    pyTimeMk hour minutes seconds

/-- `parse_rawclip`: build a `Clip` from a `RawClip`; the field
extractors that can raise are evaluated in Python's argument order
(date before time). -/
def parse_rawclip (rawclip : RawClip) : Except Unit Clip :=
  match parse_date_info rawclip.info with
  | Except.error u => Except.error u
  | Except.ok d =>
    match parse_time_info rawclip.info with
    | Except.error u => Except.error u
    | Except.ok t =>
      Except.ok (Clip.mk (get_rawclip_type rawclip) rawclip.source
        (parse_page_info rawclip.info) (parse_location_info rawclip.info)
        d t rawclip.content)

/-- The record-collection loop of `parse_rawclips_file`: consume lines
five at a time; `n` is the number of lines consumed before the current
position (the source's `line_cnt`).  The integer stored with an
unparsed record is the value of `line_cnt` at the moment of the append,
which is `n + 4`: the delimiter line's increment happens after the
append.  A trailing group of fewer than five lines is dropped. -/
def parseLoop : List String → Nat → Except Unit Extraction
  | a :: b :: c :: d :: e :: rest, n =>
    let rclip : RawClip := RawClip.mk a b c d e
    match parse_rawclip rclip with
    | Except.error u => Except.error u
    | Except.ok clip =>
      match parseLoop rest (n + 5) with
      | Except.error u => Except.error u
      | Except.ok ex =>
        if clip.type = "highlight" then
          Except.ok (Extraction.mk (clip :: ex.highlights) ex.notes ex.bookmarks ex.unparsed)
        else if clip.type = "note" then
          Except.ok (Extraction.mk ex.highlights (clip :: ex.notes) ex.bookmarks ex.unparsed)
        else if clip.type = "bookmark" then
          Except.ok (Extraction.mk ex.highlights ex.notes (clip :: ex.bookmarks) ex.unparsed)
        else if clip.type = "unparsed" then
          Except.ok (Extraction.mk ex.highlights ex.notes ex.bookmarks ((rclip, n + 4) :: ex.unparsed))
        else Except.error ()
  | _, _ => Except.ok (Extraction.mk [] [] [] [])

/-- `parse_rawclips_file` on the stream of newline-stripped lines
supplied by the external reader. -/
def parse_rawclips_file (lines : List String) : Except Unit Extraction :=
  parseLoop lines 0

/-- The five lines a `RawClip` occupies in the input file. -/
def rawClipLines (r : RawClip) : List String :=
  [r.source, r.info, r.blank, r.content, r.delimiter]

/-- Concatenate the lines of a sequence of five-line groups. -/
def flatLines : List RawClip → List String
  | [] => []
  | r :: t => rawClipLines r ++ flatLines t

/-- The clip a record contributes to the bucket of kind `t`, if any:
its parsed form when parsing succeeds and the type matches. -/
def kindClip (t : String) (r : RawClip) : Option Clip :=
  match parse_rawclip r with
  | Except.error _ => none
  | Except.ok c => if c.type = t then some c else none

/-- Stated from the spec: the bucket of kind `t` holds the parsed clips
of exactly the groups of that kind, in input order. -/
def bucketOf (t : String) (rs : List RawClip) : List Clip :=
  rs.filterMap (kindClip t)

/-- Python `''.join(str(i) + ', ' for i in pp)`. -/
def pagesJoin : List Nat → String
  | [] => ""
  | i :: t => toString i ++ ", " ++ pagesJoin t

/-- Python `str.removesuffix`. -/
def pyRemovesuffix (s suf : String) : String :=
  if List.isSuffixOf suf.data s.data then
    String.mk (s.data.take (s.data.length - suf.data.length))
  else s

/-- `pages_and_loc_to_str`: pretty-print a page or location sequence. -/
def pages_and_loc_to_str (pp : Option (List Nat)) : String :=
  match pp with
  | none => "no data"
  | some pp =>
    if pp.length = 0 then "no data"
    else if pp.length = 1 then toString (pp.getD 0 0)
    else if pp.length = 2 then toString (pp.getD 0 0) ++ "-" ++ toString (pp.getD 1 0)
    else pyRemovesuffix (pagesJoin pp) ", "

/-- Stated from the spec: a comma-joined list with no trailing
separator. -/
def commaJoin : List Nat → String
  | [] => ""
  | [i] => toString i
  | i :: t => toString i ++ ", " ++ commaJoin t

/-- Left-pad a number to two digits, as in `str(datetime.time)` and
`str(datetime.date)` components. -/
def pad2 (n : Nat) : String :=
  if n < 10 then "0" ++ toString n else toString n

/-- Left-pad a year to four digits, as in `str(datetime.date)`. -/
def pad4 (n : Nat) : String :=
  if n < 10 then "000" ++ toString n
  else if n < 100 then "00" ++ toString n
  else if n < 1000 then "0" ++ toString n
  else toString n

/-- Python `str` of an optional date: ISO form, or `"None"`. -/
def pyStrOptDate : Option PyDate → String
  | none => "None"
  | some d => pad4 d.year ++ "-" ++ pad2 d.month ++ "-" ++ pad2 d.day

/-- Python `str` of an optional time: `HH:MM:SS`, or `"None"`. -/
def pyStrOptTime : Option PyTime → String
  | none => "None"
  | some t => pad2 t.hour ++ ":" ++ pad2 t.minute ++ ":" ++ pad2 t.second

/-- One rendered object of the JSON output, with the exact field set
and order of the dict literal in `json_formatter`. -/
structure JsonObj where
  source : String
  page : List Nat
  location : List Nat
  date : String
  time : String
  type : String
  content : String
  deriving DecidableEq

/-- `json_formatter`, modelled at the level of the list of objects fed
to `json.dumps`.  Field values exactly as in the source: the `date`
field is `str(clip.date)` and the `time` field is `str(clip.source)`
(source line 283). -/
def json_formatter (clips : List Clip) : List JsonObj :=
  clips.map fun clip =>
    JsonObj.mk clip.source clip.page clip.location
      (pyStrOptDate clip.date) clip.source clip.type clip.content

/-- Python's rendering of the bound method object
`clip.type.capitalize` (the source formats the method itself, not a
call of it); the object address that appears in the text is abstracted
as the parameter `addr`. -/
def pyBoundMethodRepr (addr : String) : String :=
  "<built-in method capitalize of str object at 0x" ++ addr ++ ">"

/-- Python `sep.join(parts)`. -/
def strJoinWith (sep : String) : List String → String
  | [] => ""
  | [s] => s
  | s :: t => s ++ sep ++ strJoinWith sep t

/-- `text_formatter`; `addr` abstracts the address shown in the bound
method repr of the kind-header line. -/
def text_formatter (addr : String) (clips : List Clip) : String :=
  let delimiter : String := String.mk (List.replicate 70 '-') ++ "\n"
  let blocks := clips.map fun clip =>
    "Source: " ++ clip.source ++ "\n" ++
    "Page: " ++ pages_and_loc_to_str (some clip.page) ++ "\n" ++
    "Location: " ++ pages_and_loc_to_str (some clip.location) ++ "\n" ++
    "Creation: " ++ pyStrOptDate clip.date ++ " | " ++ pyStrOptTime clip.time ++ "\n" ++
    pyBoundMethodRepr addr ++ ":\n\n" ++
    clip.content ++ "\n" ++ delimiter
  delimiter ++ strJoinWith delimiter blocks ++ delimiter

/-- Substring test on character lists, used to state formatter facts. -/
def isSubstring (needle : List Char) : List Char → Bool
  | [] => needle.isEmpty
  | c :: t => if List.isPrefixOf needle (c :: t) then true else isSubstring needle t

/-- A record whose info line matches no kind marker and no field
pattern: it is classified unparsed and field extraction succeeds
vacuously. -/
def r_unp : RawClip :=
  RawClip.mk "Book" "garbage metadata" "" "text" "=========="

/-- A second record with an unrecognized info line. -/
def r_unp2 : RawClip :=
  RawClip.mk "Another Book" "still not a known kind marker" "" "more text" "=========="

/-- A record whose info line matches no kind marker but does match the
date pattern with a month token absent from the month table. -/
def r_bad : RawClip :=
  RawClip.mk "Book" "Added on Sunday, Smarch 1, 2023" "" "content" "=========="

/-- The well-formed highlight record of the source's docstring example. -/
def r_hl : RawClip :=
  RawClip.mk
    "Common LISP: A Gentle Introduction to Symbolic Computation (David S. Touretzky)"
    "- Your Highlight on page 46 | Location 694-694 | Added on Sunday, August 27, 2023 1:37:08 PM"
    ""
    "The length of a list is the number of elements it has"
    "=========="

/-- The clip built from `r_hl`. -/
def c_hl : Clip :=
  Clip.mk "highlight" r_hl.source [46] [694, 694]
    (some (PyDate.mk 2023 8 27)) (some (PyTime.mk 13 37 8)) r_hl.content

theorem parse_rawclip_type {r : RawClip} {c : Clip}
    (h : parse_rawclip r = Except.ok c) : c.type = get_rawclip_type r := by
  unfold parse_rawclip at h
  cases hd : parse_date_info r.info with
  | error u => rw [hd] at h; simp at h
  | ok d =>
    rw [hd] at h
    cases ht : parse_time_info r.info with
    | error u => rw [ht] at h; simp at h
    | ok t =>
      rw [ht] at h
      injection h with h2
      rw [← h2]

theorem get_rawclip_type_cases (r : RawClip) :
    get_rawclip_type r = "highlight" ∨ get_rawclip_type r = "note" ∨
    get_rawclip_type r = "bookmark" ∨ get_rawclip_type r = "unparsed" := by
  unfold get_rawclip_type
  split_ifs <;> simp

theorem bucketOf_cons_of_type (t : String) {r : RawClip} {c : Clip} {rs : List RawClip}
    (hp : parse_rawclip r = Except.ok c) (ht : c.type = t) :
    bucketOf t (r :: rs) = c :: bucketOf t rs := by
  simp [bucketOf, List.filterMap_cons, kindClip, hp, ht]

theorem bucketOf_cons_of_ne (t : String) {r : RawClip} {c : Clip} {rs : List RawClip}
    (hp : parse_rawclip r = Except.ok c) (ht : ¬ c.type = t) :
    bucketOf t (r :: rs) = bucketOf t rs := by
  simp [bucketOf, List.filterMap_cons, kindClip, hp, ht]

/-- Claim C1: in the JSON output every rendered object has exactly the
fields source, page, location, date, time, type, content, and its time
field should be the Clip's time rendered as text (or an absent marker).
Evaluating the code at a well-formed highlight shows the field set is
right but the `time` field carries the Clip's source string (source
line 283 renders `str(clip.source)`), not the rendered time value. -/
theorem c1_json_time_field_is_source :
    parse_rawclip r_hl = Except.ok c_hl ∧
    json_formatter [c_hl] =
      [JsonObj.mk r_hl.source [46] [694, 694] "2023-08-27" r_hl.source "highlight" r_hl.content] ∧
    pyStrOptTime c_hl.time = "13:37:08" ∧
    ((json_formatter [c_hl]).map JsonObj.time == [pyStrOptTime c_hl.time]) = false := by
  decide

/-- Claim C2 counterexample: a record whose info line is classified
Unparsed is still put through field extraction by the build step, and
the extraction can fail: on `r_bad` (an unparsed-classified info line
whose month token is not in the month table) the whole parse raises
instead of returning the record to the unparsed bucket. -/
theorem c2_counterexample :
    get_rawclip_type r_bad = "unparsed" ∧
    parse_rawclips_file (rawClipLines r_bad) = Except.error () := by
  decide

/-- Claim C3: the integer paired with an unparsed record is the
source's `line_cnt` at the moment of the append, which is one less than
the 1-based number of the record's delimiter line: the two records
ending at (1-based) lines 5 and 10 are paired with 4 and 9. -/
theorem c3_unparsed_line_number_pairing :
    parse_rawclips_file (rawClipLines r_unp ++ rawClipLines r_unp2) =
      Except.ok (Extraction.mk [] [] [] [(r_unp, 4), (r_unp2, 9)]) := by
  decide

/-- Claim C9: the plain-text block's kind header is not the capitalized
kind name with a colon; it is the Python repr of the bound method
`clip.type.capitalize` followed by a colon, because the source never
calls the method (line 240).  The rendered block of a highlight clip
contains the bound-method repr header and contains no occurrence of
the text Highlight followed by a colon. -/
theorem c9_kind_header_is_method_repr :
    isSubstring (pyBoundMethodRepr "7f2e8c1a55b0" ++ ":").data
      (text_formatter "7f2e8c1a55b0" [c_hl]).data = true ∧
    isSubstring "Highlight:".data
      (text_formatter "7f2e8c1a55b0" [c_hl]).data = false := by
  decide

/-- Claim C10: time extraction is not total over matched lines: the
pattern accepts minute 99 and accepts a PM hour whose conversion
exceeds 23, and in both cases the time constructor raises instead of
returning a valid or absent time. -/
theorem c10_time_extraction_not_total :
    timeSearch "foo 1:99:00 AM".data = some ("1", "99", "00", "AM") ∧
    parse_time_info "foo 1:99:00 AM" = Except.error () ∧
    timeSearch "x 13:00:00 PM".data = some ("13", "00", "00", "PM") ∧
    parse_time_info "x 13:00:00 PM" = Except.error () := by
  decide

/-- Claim C6: time extraction converts 12-hour to 24-hour form: on any
matched line, PM with hour not 12 adds 12 and AM with hour 12
subtracts 12; a line ending in 12:00:00 AM yields 00:00:00, one ending
in 12:00:00 PM yields 12:00:00, and a line whose end matches no time
pattern yields an absent time. -/
theorem c6_time_conversion :
    (∀ (s g1 g2 g3 g4 : String),
      timeSearch s.data = some (g1, g2, g3, g4) →
      parse_time_info s =
        pyTimeMk
          (if upperStr g4 = "PM" ∧ strToNat g1 ≠ 12 then strToNat g1 + 12
           else if upperStr g4 = "AM" ∧ strToNat g1 = 12 then strToNat g1 - 12
           else strToNat g1)
          (strToNat g2) (strToNat g3)) ∧
    parse_time_info "- Your Highlight on page 4 | Added on Sunday, August 27, 2023 12:00:00 AM" =
      Except.ok (some (PyTime.mk 0 0 0)) ∧
    parse_time_info "- Your Highlight on page 4 | Added on Sunday, August 27, 2023 12:00:00 PM" =
      Except.ok (some (PyTime.mk 12 0 0)) ∧
    parse_time_info "x 1:37:08 PM" = Except.ok (some (PyTime.mk 13 37 8)) ∧
    parse_time_info "x 9:05:03 AM" = Except.ok (some (PyTime.mk 9 5 3)) ∧
    parse_time_info "x 1:37:08 PM trailing" = Except.ok none ∧
    parse_time_info "- Your Bookmark on page 7" = Except.ok none := by
  refine ⟨?_, by decide, by decide, by decide, by decide, by decide, by decide⟩
  intro s g1 g2 g3 g4 hm
  simp [parse_time_info, hm]

/-- Witness for C6 at a concrete matched line. -/
theorem c6_witness :
    parse_time_info "w 3:05:09 PM" = Except.ok (some (PyTime.mk 15 5 9)) := by
  have h := c6_time_conversion.1 "w 3:05:09 PM" "3" "05" "09" "PM" (by decide)
  rw [h]
  decide

/-- Claim C7: a line matching the date pattern whose month token is not
in the month table makes date extraction raise (a table-lookup
`KeyError`, modelled as `Except.error`), while only a line with no
pattern match yields an absent date. -/
theorem c7_unknown_month_is_hard_error :
    (∀ (s mo dy yr : String),
      dateSearch s.data = some (mo, dy, yr) →
      List.lookup (lowerStr mo) MONTHS = none →
      parse_date_info s = Except.error ()) ∧
    (∀ (s : String), dateSearch s.data = none → parse_date_info s = Except.ok none) ∧
    parse_date_info "- Your Note on page 3 | Added on Sunday, Smarch 14, 2024" = Except.error () ∧
    parse_date_info "- Your Note on page 3" = Except.ok none := by
  refine ⟨?_, ?_, by decide, by decide⟩
  · intro s mo dy yr hm hl
    simp [parse_date_info, hm, hl]
  · intro s hm
    simp [parse_date_info, hm]

/-- Witness for C7 at a concrete matched line with an unknown month. -/
theorem c7_witness :
    parse_date_info "x Added on Monday, Floreal 2, 1794" = Except.error () :=
  c7_unknown_month_is_hard_error.1 "x Added on Monday, Floreal 2, 1794"
    "Floreal" "2" "1794" (by decide) (by decide)

theorem str_ext {a b : String} (h : a.data = b.data) : a = b := by
  cases a
  cases b
  exact congrArg String.mk h

theorem str_data_append (a b : String) : (a ++ b).data = a.data ++ b.data := rfl

theorem str_append_assoc (a b c : String) : a ++ b ++ c = a ++ (b ++ c) :=
  str_ext (by simp [str_data_append])

theorem str_append_right_empty (a : String) : a ++ "" = a :=
  str_ext (by simp [str_data_append])

theorem take_length_append {α : Type} (l m : List α) : (l ++ m).take l.length = l := by
  induction l with
  | nil => rfl
  | cons a t ih => simp [List.take_succ_cons, ih]

theorem pyRemovesuffix_append_comma (x : String) : pyRemovesuffix (x ++ ", ") ", " = x := by
  unfold pyRemovesuffix
  have hsuf : List.isSuffixOf ", ".data (x ++ ", ").data = true := by
    show List.isSuffixOf [',', ' '] (x.data ++ [',', ' ']) = true
    simp [List.isSuffixOf, List.isPrefixOf, List.reverse_append]
  rw [hsuf]
  simp only [if_true]
  apply str_ext
  show (x.data ++ [',', ' ']).take ((x.data ++ [',', ' ']).length - ", ".data.length) = x.data
  have hlen : (x.data ++ [',', ' ']).length - ", ".data.length = x.data.length := by
    simp [List.length_append]
  rw [hlen, take_length_append]

theorem pagesJoin_eq_commaJoin_append :
    ∀ (a : Nat) (t : List Nat), pagesJoin (a :: t) = commaJoin (a :: t) ++ ", "
  | a, [] => by
    show toString a ++ ", " ++ pagesJoin [] = commaJoin [a] ++ ", "
    simp [pagesJoin, commaJoin, str_append_right_empty]
  | a, b :: t => by
    have ih := pagesJoin_eq_commaJoin_append b t
    show toString a ++ ", " ++ pagesJoin (b :: t) = commaJoin (a :: b :: t) ++ ", "
    rw [ih]
    simp [commaJoin, str_append_assoc]

/-- Claim C8: the page/location pretty-printer yields the literal text
no data on an empty sequence, the decimal form of the single element on
a one-element sequence, the two elements joined by a hyphen on a
two-element sequence, and the comma-joined elements with no trailing
separator on a longer sequence. -/
theorem c8_pretty_printer :
    pages_and_loc_to_str (some []) = "no data" ∧
    (∀ (a : Nat), pages_and_loc_to_str (some [a]) = toString a) ∧
    (∀ (a b : Nat), pages_and_loc_to_str (some [a, b]) = toString a ++ "-" ++ toString b) ∧
    (∀ (a b c : Nat) (t : List Nat),
      pages_and_loc_to_str (some (a :: b :: c :: t)) = commaJoin (a :: b :: c :: t)) := by
  refine ⟨rfl, fun a => rfl, fun a b => rfl, ?_⟩
  intro a b c t
  simp only [pages_and_loc_to_str]
  rw [if_neg (by simp only [List.length_cons]; omega),
      if_neg (by simp only [List.length_cons]; omega),
      if_neg (by simp only [List.length_cons]; omega)]
  rw [pagesJoin_eq_commaJoin_append, pyRemovesuffix_append_comma]

/-- Claim C2 as amended: the build step performs field extraction even
for records classified Unparsed (so it can raise, as `c2_counterexample`
shows); when extraction does not raise, the RawRecord is returned
unchanged to the unparsed bucket, paired with the loop's line counter
at the delimiter line. -/
theorem c2_unparsed_routed_when_extraction_succeeds (r : RawClip) (c : Clip)
    (hu : get_rawclip_type r = "unparsed") (hk : parse_rawclip r = Except.ok c) :
    parse_rawclips_file (rawClipLines r) = Except.ok (Extraction.mk [] [] [] [(r, 4)]) := by
  have hct : c.type = "unparsed" := by rw [parse_rawclip_type hk, hu]
  obtain ⟨s, i, bl, co, de⟩ := r
  show parseLoop [s, i, bl, co, de] 0 = _
  simp only [parseLoop]
  rw [hk]
  simp [hct]

/-- Witness for the amended C2 at a concrete unparsed record. -/
theorem c2_witness :
    parse_rawclips_file (rawClipLines r_unp) =
      Except.ok (Extraction.mk [] [] [] [(r_unp, 4)]) :=
  c2_unparsed_routed_when_extraction_succeeds r_unp
    (Clip.mk "unparsed" "Book" [] [] none none "text") (by decide) (by decide)

theorem parseLoop_flat : ∀ (rs : List RawClip),
    ∀ (n : Nat), (∀ r ∈ rs, get_rawclip_type r ≠ "unparsed" ∧ exOk (parse_rawclip r) = true) →
    parseLoop (flatLines rs) n =
      Except.ok (Extraction.mk (bucketOf "highlight" rs) (bucketOf "note" rs)
        (bucketOf "bookmark" rs) []) := by
  intro rs
  induction rs with
  | nil => intro n _; rfl
  | cons r rs ih =>
    intro n h
    obtain ⟨hne, hok⟩ := h r (List.mem_cons_self r rs)
    have h' : ∀ x ∈ rs, get_rawclip_type x ≠ "unparsed" ∧ exOk (parse_rawclip x) = true :=
      fun x hx => h x (List.mem_cons_of_mem r hx)
    cases hp : parse_rawclip r with
    | error u => rw [hp] at hok; simp [exOk] at hok
    | ok c =>
      have htype := parse_rawclip_type hp
      rcases get_rawclip_type_cases r with h1 | h1 | h1 | h1
      · have hct : c.type = "highlight" := htype.trans h1
        rw [bucketOf_cons_of_type "highlight" hp hct,
            bucketOf_cons_of_ne "note" hp (by rw [hct]; decide),
            bucketOf_cons_of_ne "bookmark" hp (by rw [hct]; decide)]
        obtain ⟨s, i, bl, co, de⟩ := r
        show parseLoop (s :: i :: bl :: co :: de :: flatLines rs) n = _
        simp only [parseLoop]
        rw [hp, ih (n + 5) h']
        simp [hct]
      · have hct : c.type = "note" := htype.trans h1
        rw [bucketOf_cons_of_ne "highlight" hp (by rw [hct]; decide),
            bucketOf_cons_of_type "note" hp hct,
            bucketOf_cons_of_ne "bookmark" hp (by rw [hct]; decide)]
        obtain ⟨s, i, bl, co, de⟩ := r
        show parseLoop (s :: i :: bl :: co :: de :: flatLines rs) n = _
        simp only [parseLoop]
        rw [hp, ih (n + 5) h']
        simp [hct]
      · have hct : c.type = "bookmark" := htype.trans h1
        rw [bucketOf_cons_of_ne "highlight" hp (by rw [hct]; decide),
            bucketOf_cons_of_ne "note" hp (by rw [hct]; decide),
            bucketOf_cons_of_type "bookmark" hp hct]
        obtain ⟨s, i, bl, co, de⟩ := r
        show parseLoop (s :: i :: bl :: co :: de :: flatLines rs) n = _
        simp only [parseLoop]
        rw [hp, ih (n + 5) h']
        simp [hct]
      · exact absurd h1 hne

theorem bucket_lengths : ∀ (rs : List RawClip),
    (∀ r ∈ rs, get_rawclip_type r ≠ "unparsed" ∧ exOk (parse_rawclip r) = true) →
    (bucketOf "highlight" rs).length + (bucketOf "note" rs).length +
      (bucketOf "bookmark" rs).length = rs.length := by
  intro rs
  induction rs with
  | nil => intro _; rfl
  | cons r rs ih =>
    intro h
    obtain ⟨hne, hok⟩ := h r (List.mem_cons_self r rs)
    have h' : ∀ x ∈ rs, get_rawclip_type x ≠ "unparsed" ∧ exOk (parse_rawclip x) = true :=
      fun x hx => h x (List.mem_cons_of_mem r hx)
    have ihh := ih h'
    cases hp : parse_rawclip r with
    | error u => rw [hp] at hok; simp [exOk] at hok
    | ok c =>
      have htype := parse_rawclip_type hp
      rcases get_rawclip_type_cases r with h1 | h1 | h1 | h1
      · have hct : c.type = "highlight" := htype.trans h1
        rw [bucketOf_cons_of_type "highlight" hp hct,
            bucketOf_cons_of_ne "note" hp (by rw [hct]; decide),
            bucketOf_cons_of_ne "bookmark" hp (by rw [hct]; decide)]
        simp only [List.length_cons]
        omega
      · have hct : c.type = "note" := htype.trans h1
        rw [bucketOf_cons_of_ne "highlight" hp (by rw [hct]; decide),
            bucketOf_cons_of_type "note" hp hct,
            bucketOf_cons_of_ne "bookmark" hp (by rw [hct]; decide)]
        simp only [List.length_cons]
        omega
      · have hct : c.type = "bookmark" := htype.trans h1
        rw [bucketOf_cons_of_ne "highlight" hp (by rw [hct]; decide),
            bucketOf_cons_of_ne "note" hp (by rw [hct]; decide),
            bucketOf_cons_of_type "bookmark" hp hct]
        simp only [List.length_cons]
        omega
      · exact absurd h1 hne

/-- Claim C4: an input of N well-formed five-line groups with valid
kind markers parses with no error into exactly N clips, each in the
bucket named by its group's info-line marker, in input order, with an
empty unparsed bucket.  Well-formed means the group's info line has a
recognized kind marker and its field extraction raises no error. -/
theorem c4_wellformed_groups_partition (rs : List RawClip)
    (h : ∀ r ∈ rs, get_rawclip_type r ≠ "unparsed" ∧ exOk (parse_rawclip r) = true) :
    parse_rawclips_file (flatLines rs) =
      Except.ok (Extraction.mk (bucketOf "highlight" rs) (bucketOf "note" rs)
        (bucketOf "bookmark" rs) []) ∧
    (bucketOf "highlight" rs).length + (bucketOf "note" rs).length +
      (bucketOf "bookmark" rs).length = rs.length :=
  ⟨parseLoop_flat rs 0 h, bucket_lengths rs h⟩

/-- Witness for C4 at a one-group input. -/
theorem c4_witness :
    parse_rawclips_file (flatLines [r_hl]) =
      Except.ok (Extraction.mk (bucketOf "highlight" [r_hl]) (bucketOf "note" [r_hl])
        (bucketOf "bookmark" [r_hl]) []) ∧
    (bucketOf "highlight" [r_hl]).length + (bucketOf "note" [r_hl]).length +
      (bucketOf "bookmark" [r_hl]).length = 1 :=
  c4_wellformed_groups_partition [r_hl] (by decide)

theorem parseLoop_drop_tail : ∀ (l : List String) (n : Nat),
    parseLoop l n = parseLoop (l.take (5 * (l.length / 5))) n
  | [], _ => rfl
  | [a], n => by
    have h : 5 * (([a] : List String).length / 5) = 0 := by norm_num
    rw [h, List.take_zero]
    rfl
  | [a, b], n => by
    have h : 5 * (([a, b] : List String).length / 5) = 0 := by norm_num
    rw [h, List.take_zero]
    rfl
  | [a, b, c], n => by
    have h : 5 * (([a, b, c] : List String).length / 5) = 0 := by norm_num
    rw [h, List.take_zero]
    rfl
  | [a, b, c, d], n => by
    have h : 5 * (([a, b, c, d] : List String).length / 5) = 0 := by norm_num
    rw [h, List.take_zero]
    rfl
  | a :: b :: c :: d :: e :: rest, n => by
    have ih := parseLoop_drop_tail rest (n + 5)
    have hlen : (a :: b :: c :: d :: e :: rest).length = rest.length + 5 := by
      simp only [List.length_cons]
    have h5 : 5 * ((rest.length + 5) / 5) = 5 + 5 * (rest.length / 5) := by
      rw [Nat.add_div_right _ (by norm_num)]
      ring
    have htake : (a :: b :: c :: d :: e :: rest).take
        (5 * ((a :: b :: c :: d :: e :: rest).length / 5)) =
        a :: b :: c :: d :: e :: rest.take (5 * (rest.length / 5)) := by
      rw [hlen, h5, List.take_add]
      rfl
    rw [htake]
    simp only [parseLoop]
    rw [ih]

/-- Claim C5: when the input's line count is not a multiple of five,
the trailing partial group contributes nothing: the parse result is
that of the input truncated to its last complete five-line group. -/
theorem c5_partial_tail_dropped (lines : List String)
    (_h : lines.length % 5 ≠ 0) :
    parse_rawclips_file lines =
      parse_rawclips_file (lines.take (5 * (lines.length / 5))) :=
  parseLoop_drop_tail lines 0

/-- Witness for C5 at a six-line input. -/
theorem c5_witness :
    (rawClipLines r_unp ++ ["leftover"]).length % 5 = 1 ∧
    parse_rawclips_file (rawClipLines r_unp ++ ["leftover"]) =
      parse_rawclips_file ((rawClipLines r_unp ++ ["leftover"]).take
        (5 * ((rawClipLines r_unp ++ ["leftover"]).length / 5))) :=
  ⟨by decide, c5_partial_tail_dropped (rawClipLines r_unp ++ ["leftover"]) (by decide)⟩
